import Mathlib

/-!
Verification of the ockam repository's ABAC expression engine
(ockam_abac: expr.rs, eval.rs, parser.rs), the TCP portal worker
(ockam_transport_tcp: portal_worker.rs) and the CLI state directory
(ockam_command: state.rs), as a shallow embedding in Lean 4.

Conventions used throughout:
 - Rust Vec-based stacks are lists with the head as the stack top
   (Vec push/pop work at the end).
 - Rust i64 payloads carry no arithmetic in this code (only comparisons),
   so they are embedded as unbounded Int.
 - f64 values are embedded by their exact semantics: NaN, signed
   infinities, and finite values as exact rationals.  f64 equality and
   ordering on this model coincide with IEEE-754 comparison semantics
   (NaN compares unequal to everything; -0.0 and +0.0 are both the
   rational 0).
 - Rust panics (out-of-bounds indexing, usize underflow, failed
   debug_assert, unwrap on None) are a distinct outcome of the
   interpreter, never an ordinary value or error.
 - Loops whose termination is not structural run on explicit fuel; fuel
   exhaustion is its own outcome, distinct from every source behaviour.
-/

namespace Ockam

/-- Model of an f64 value: NaN, a signed infinity, or a finite value
represented by its exact rational magnitude.  Only equality and ordering
are performed on floats in the embedded code, and both are determined by
this data. -/
inductive F64 where
  | nan : F64
  | inf (negative : Bool) : F64
  | fin (q : ℚ) : F64

/-- Bit length (index of the highest set bit, plus one) of a natural
number below 2^64, computed by a bounded scan so that it reduces
definitionally (core Nat.log2 is defined by well-founded recursion and
does not). -/
def bitLen64 (n : Nat) : Nat :=
  (List.range 64).foldl (fun acc k => if 2 ^ k ≤ n then k + 1 else acc) 0

/-- Rounding of a natural number to 53 significant bits, round to
nearest, ties to even.  This is the value produced by the IEEE-754
conversion of an integer magnitude below 2^64 to binary64 (`as f64` in
the source). -/
def roundNat53 (n : Nat) : Nat :=
  if n < 2 ^ 53 then n
  else
    let k := bitLen64 n - 53
    let q := n / 2 ^ k
    let r := n % 2 ^ k
    let half := 2 ^ (k - 1)
    if r < half then q * 2 ^ k
    else if half < r then (q + 1) * 2 ^ k
    else if q % 2 = 0 then q * 2 ^ k else (q + 1) * 2 ^ k

/-- The integer value of `(i as f64)` for an i64 `i` (the conversion is
exact in sign and rounds the magnitude to 53 bits). -/
def roundInt53 (i : Int) : Int :=
  if i < 0 then -(roundNat53 i.natAbs : Int) else (roundNat53 i.natAbs : Int)

/-- `i as f64` for an i64 value: always finite, with the rounded
magnitude. -/
def castF64 (i : Int) : F64 :=
  F64.fin ((roundInt53 i : Int) : ℚ)

/-- IEEE-754 equality on the f64 model: NaN equals nothing, infinities
compare by sign, finite values by exact value. -/
def f64Eq : F64 → F64 → Bool
  | F64.fin a, F64.fin b => a == b
  | F64.inf a, F64.inf b => a == b
  | _, _ => false

/-- IEEE-754 partial comparison on the f64 model: NaN is incomparable;
-inf below every finite value and +inf; finite values by exact value. -/
def f64Cmp : F64 → F64 → Option Ordering
  | F64.nan, _ => none
  | _, F64.nan => none
  | F64.fin a, F64.fin b =>
      if a < b then some Ordering.lt
      else if b < a then some Ordering.gt
      else some Ordering.eq
  | F64.inf true, F64.inf true => some Ordering.eq
  | F64.inf false, F64.inf false => some Ordering.eq
  | F64.inf true, _ => some Ordering.lt
  | _, F64.inf true => some Ordering.gt
  | F64.inf false, _ => some Ordering.gt
  | _, F64.inf false => some Ordering.lt

/-- The expression type (expr.rs, `pub enum Expr`): Str, Int, Float,
Bool, Ident, Seq (data list) and List (syntactic form). -/
inductive Expr where
  | str (s : String) : Expr
  | int (i : Int) : Expr
  | float (f : F64) : Expr
  | bool (b : Bool) : Expr
  | ident (s : String) : Expr
  | seq (es : List Expr) : Expr
  | list (es : List Expr) : Expr

mutual

/-- `impl PartialEq for Expr` (expr.rs lines 46-61): structural per
variant, with Int and Float comparing across each other by lifting the
Int to f64 (`*a as f64`). -/
def exprEq : Expr → Expr → Bool
  | Expr.str a, Expr.str b => a == b
  | Expr.bool a, Expr.bool b => a == b
  | Expr.ident a, Expr.ident b => a == b
  | Expr.seq a, Expr.seq b => listEq a b
  | Expr.list a, Expr.list b => listEq a b
  | Expr.int a, Expr.int b => a == b
  | Expr.float a, Expr.float b => f64Eq a b
  | Expr.int a, Expr.float b => f64Eq (castF64 a) b
  | Expr.float a, Expr.int b => f64Eq a (castF64 b)
  | _, _ => false

/-- Vec equality: equal lengths and elementwise `exprEq`. -/
def listEq : List Expr → List Expr → Bool
  | [], [] => true
  | x :: xs, y :: ys => exprEq x y && listEq xs ys
  | _, _ => false

end

mutual

/-- `impl PartialOrd for Expr` (expr.rs lines 63-81): same-variant
comparison; Int vs Float via the f64 lift; Seq first by length then
lexicographically; different variants incomparable. -/
def exprCmp : Expr → Expr → Option Ordering
  | Expr.str a, Expr.str b => some (compare a b)
  | Expr.bool a, Expr.bool b => some (compare a b)
  | Expr.ident a, Expr.ident b => some (compare a b)
  | Expr.seq a, Expr.seq b =>
      match compare a.length b.length with
      | Ordering.eq => listCmp a b
      | o => some o
  | Expr.list a, Expr.list b => listCmp a b
  | Expr.int a, Expr.int b => some (compare a b)
  | Expr.float a, Expr.float b => f64Cmp a b
  | Expr.int a, Expr.float b => f64Cmp (castF64 a) b
  | Expr.float a, Expr.int b => f64Cmp a (castF64 b)
  | _, _ => none

/-- Vec lexicographic partial comparison (Rust slice PartialOrd). -/
def listCmp : List Expr → List Expr → Option Ordering
  | [], [] => some Ordering.eq
  | [], _ :: _ => some Ordering.lt
  | _ :: _, [] => some Ordering.gt
  | x :: xs, y :: ys =>
      match exprCmp x y with
      | some Ordering.eq => listCmp xs ys
      | o => o

end

/-- Rust `x >= y` via PartialOrd: true iff partial_cmp is Greater or
Equal (incomparable counts as false). -/
def exprGe (x y : Expr) : Bool :=
  match exprCmp x y with
  | some Ordering.gt => true
  | some Ordering.eq => true
  | _ => false

/-- Rust `x <= y` via PartialOrd: true iff partial_cmp is Less or Equal. -/
def exprLe (x y : Expr) : Bool :=
  match exprCmp x y with
  | some Ordering.lt => true
  | some Ordering.eq => true
  | _ => false

/-- Modelled from the spec: the evaluation error type (error.rs is not
under src/; spec section 7 lists the four kinds). -/
inductive EvalError where
  | unknown (name : String) : EvalError
  | invalidType (e : Expr) (msg : String) : EvalError
  | malformed (msg : String) : EvalError
  | bindingNotFound (name : String) : EvalError

/-- Modelled from the spec: the environment (env.rs is not under src/;
spec section 3: a mapping from identifier to expression, with lookup
failure an evaluation error).  Embedded as an association list. -/
def Env : Type := List (String × Expr)

/-- Environment lookup (`env.get(id)` in eval.rs returns the bound
expression or an error; here the miss is reported by the caller). -/
def Env.get (env : Env) (id : String) : Option Expr :=
  match env with
  | [] => none
  | p :: rest => if p.1 == id then some p.2 else Env.get rest id

/-- Environment membership test (`env.contains(id)`). -/
def Env.contains (env : Env) (id : String) : Bool :=
  (Env.get env id).isSome

/-- The evaluator's control-stack operations (eval.rs lines 9-21). -/
inductive Op where
  | eval (e : Expr) : Op
  | andN (n : Nat) : Op
  | orN (n : Nat) : Op
  | notOp : Op
  | iteOp : Op
  | eqN (n : Nat) : Op
  | gtN (n : Nat) : Op
  | ltN (n : Nat) : Op
  | memberOp : Op
  | seqN (n : Nat) : Op

/-- Outcome of running the evaluator: a value, a typed error, a Rust
panic (index out of bounds, usize underflow, failed debug_assert), or
fuel exhaustion (not a source behaviour; the source loop is unbounded). -/
inductive EvalOut where
  | ok (e : Expr) : EvalOut
  | err (e : EvalError) : EvalOut
  | panicked : EvalOut
  | fuelOut : EvalOut

/-- The Op::And drain scan (eval.rs lines 81-91), over the drained
values in Vec (source) order: continue on true, stop with false on the
first false, type error on a non-bool. -/
def andScan : List Expr → Except EvalError Bool
  | [] => Except.ok true
  | Expr.bool true :: es => andScan es
  | Expr.bool false :: _ => Except.ok false
  | other :: _ => Except.error (EvalError.invalidType other "\x27and\x27 expected bool")

/-- The Op::Or drain scan (eval.rs lines 92-102). -/
def orScan : List Expr → Except EvalError Bool
  | [] => Except.ok false
  | Expr.bool true :: _ => Except.ok true
  | Expr.bool false :: es => orScan es
  | other :: _ => Except.error (EvalError.invalidType other "\x27or\x27 expected bool")

/-- The exists? inline scan (eval.rs lines 46-62): each operand must be
an identifier; the scan stops with false at the first identifier not
bound in the environment, and fails with InvalidType on the first
non-identifier it reaches.  Operands are never resolved, only
`env.contains` is consulted. -/
def existsScan (env : Env) : List Expr → Except EvalError Bool
  | [] => Except.ok true
  | Expr.ident id :: es =>
      if Env.contains env id then existsScan env es else Except.ok false
  | other :: _ =>
      Except.error (EvalError.invalidType other "\x27exists?\x27 expects identifiers")

/-- The strictly-ascending chain test of Op::Lt (eval.rs lines 138-153):
walk the operands in source order, failing as soon as `x >= y`. -/
def chainAsc : Expr → List Expr → Bool
  | _, [] => true
  | x, y :: ys => if exprGe x y then false else chainAsc y ys

/-- The strictly-descending chain test of Op::Gt (eval.rs lines 154-169). -/
def chainDesc : Expr → List Expr → Bool
  | _, [] => true
  | x, y :: ys => if exprLe x y then false else chainDesc y ys

/-- The main evaluator loop of eval.rs (`pub fn eval`), one source loop
iteration per fuel unit.  `ctrl` and `args` are the two stacks with the
head as top.  The Rust `args.drain(args.len() - n ..)` removes the last
n Vec elements and yields them in Vec order, which here is
`(args.take n).reverse`; `args[args.len() - n]` with `n = 0` or
`n > args.len()` is an out-of-bounds index or usize underflow, hence
`panicked`.  On an empty control stack the source asserts exactly one
element on the argument stack (line 191) and unwraps it (line 192);
any other argument-stack shape is a panic. -/
def evalLoop : Nat → List Op → List Expr → Env → EvalOut
  | 0, _, _, _ => EvalOut.fuelOut
  | _ + 1, [], args, _ =>
      match args with
      | [x] => EvalOut.ok x
      | _ => EvalOut.panicked
  | f + 1, Op.eval e :: rest, args, env =>
      match e with
      | Expr.ident id =>
          match Env.get env id with
          | some e2 => evalLoop f (Op.eval e2 :: rest) args env
          | none => EvalOut.err (EvalError.bindingNotFound id)
      | Expr.list [] => evalLoop f rest (Expr.list [] :: args) env
      | Expr.list (Expr.ident id :: es) =>
          match id with
          | "and" => evalLoop f (es.map Op.eval ++ Op.andN es.length :: rest) args env
          | "or" => evalLoop f (es.map Op.eval ++ Op.orN es.length :: rest) args env
          | "not" => evalLoop f (es.map Op.eval ++ Op.notOp :: rest) args env
          | "if" => evalLoop f (es.map Op.eval ++ Op.iteOp :: rest) args env
          | "<" => evalLoop f (es.map Op.eval ++ Op.ltN es.length :: rest) args env
          | ">" => evalLoop f (es.map Op.eval ++ Op.gtN es.length :: rest) args env
          | "=" => evalLoop f (es.map Op.eval ++ Op.eqN es.length :: rest) args env
          | "!=" => evalLoop f (es.map Op.eval ++ Op.eqN es.length :: Op.notOp :: rest) args env
          | "member?" => evalLoop f (es.map Op.eval ++ Op.memberOp :: rest) args env
          | "exists?" =>
              match existsScan env es with
              | Except.ok b => evalLoop f rest (Expr.bool b :: args) env
              | Except.error e => EvalOut.err e
          | _ => EvalOut.err (EvalError.unknown id)
      | Expr.list (other :: _) =>
          EvalOut.err (EvalError.invalidType other "expected (op ...)")
      | Expr.seq es => evalLoop f (es.map Op.eval ++ Op.seqN es.length :: rest) args env
      | other => evalLoop f rest (other :: args) env
  | f + 1, Op.andN n :: rest, args, env =>
      if n > args.length then EvalOut.panicked
      else
        match andScan ((args.take n).reverse) with
        | Except.ok b => evalLoop f rest (Expr.bool b :: args.drop n) env
        | Except.error e => EvalOut.err e
  | f + 1, Op.orN n :: rest, args, env =>
      if n > args.length then EvalOut.panicked
      else
        match orScan ((args.take n).reverse) with
        | Except.ok b => evalLoop f rest (Expr.bool b :: args.drop n) env
        | Except.error e => EvalOut.err e
  | f + 1, Op.notOp :: rest, args, env =>
      match args with
      | [] => EvalOut.err (EvalError.malformed "\x27not\x27 requires exactly one argument")
      | Expr.bool b :: args2 => evalLoop f rest (Expr.bool (!b) :: args2) env
      | other :: _ => EvalOut.err (EvalError.invalidType other "\x27not\x27 expected bool")
  | f + 1, Op.iteOp :: rest, args, env =>
      match args with
      | fv :: tv :: cv :: args2 =>
          match cv with
          | Expr.bool true => evalLoop f rest (tv :: args2) env
          | Expr.bool false => evalLoop f rest (fv :: args2) env
          | other => EvalOut.err (EvalError.invalidType other "\x27if\x27 expected bool")
      | _ => EvalOut.err (EvalError.malformed "\x27if\x27 requires three arguments")
  | f + 1, Op.eqN n :: rest, args, env =>
      if args.length < 2 then
        EvalOut.err (EvalError.malformed "\x27=\x27 requires at least two arguments")
      else if n = 0 ∨ n > args.length then EvalOut.panicked
      else
        match (args.take n).reverse with
        | x :: ys =>
            evalLoop f rest (Expr.bool (ys.all fun y => exprEq x y) :: args.drop n) env
        | [] => EvalOut.panicked
  | f + 1, Op.ltN n :: rest, args, env =>
      if args.length < 2 then
        EvalOut.err (EvalError.malformed "\x27<\x27 requires at least two arguments")
      else if n = 0 ∨ n > args.length then EvalOut.panicked
      else
        match (args.take n).reverse with
        | x :: ys => evalLoop f rest (Expr.bool (chainAsc x ys) :: args.drop n) env
        | [] => EvalOut.panicked
  | f + 1, Op.gtN n :: rest, args, env =>
      if args.length < 2 then
        EvalOut.err (EvalError.malformed "\x27>\x27 requires at least two arguments")
      else if n = 0 ∨ n > args.length then EvalOut.panicked
      else
        match (args.take n).reverse with
        | x :: ys => evalLoop f rest (Expr.bool (chainDesc x ys) :: args.drop n) env
        | [] => EvalOut.panicked
  | f + 1, Op.memberOp :: rest, args, env =>
      match args with
      | s :: x :: args2 =>
          match s with
          | Expr.seq xs =>
              evalLoop f rest (Expr.bool (xs.any fun y => exprEq y x) :: args2) env
          | other =>
              EvalOut.err
                (EvalError.invalidType other "\x27member?\x27 expects sequence as second argument")
      | _ => EvalOut.err (EvalError.malformed "\x27member?\x27 requires two arguments")
  | f + 1, Op.seqN n :: rest, args, env =>
      if n > args.length then EvalOut.panicked
      else evalLoop f rest (Expr.seq ((args.take n).reverse) :: args.drop n) env

/-- `eval(expr, env)` (eval.rs line 7): run the loop from a single
Op::Eval of the whole expression with an empty argument stack. -/
def eval (fuel : Nat) (e : Expr) (env : Env) : EvalOut :=
  evalLoop fuel [Op.eval e] [] env


mutual

/-- Every Int payload in the expression has magnitude at most 2^53 (the
range on which the i64 to f64 lift is injective). -/
def intsSmall : Expr → Bool
  | Expr.int i => decide (i.natAbs ≤ 2 ^ 53)
  | Expr.seq es => listSmall es
  | Expr.list es => listSmall es
  | _ => true

/-- intsSmall over every element. -/
def listSmall : List Expr → Bool
  | [] => true
  | e :: es => intsSmall e && listSmall es

end

mutual

/-- No Float payload in the expression is NaN. -/
def nanFree : Expr → Bool
  | Expr.float F64.nan => false
  | Expr.seq es => listNanFree es
  | Expr.list es => listNanFree es
  | _ => true

/-- nanFree over every element. -/
def listNanFree : List Expr → Bool
  | [] => true
  | e :: es => nanFree e && listNanFree es

end

/-- Modelled from the spec: the parse error type (error.rs is not under
src/; spec section 7: `message(text)` for syntactic issues plus
numeric/UTF-8 propagation, here the propagated numeric-parse and
invalid-UTF-8 errors of parser.rs lines 45, 58 and 65). -/
inductive ParseError where
  | message (s : String) : ParseError
  | numeric : ParseError
  | badUtf8 : ParseError

/-- Modelled from the spec: lexer tokens, at the interface parser.rs
consumes (the lexer itself is the external wast crate; spec section 4.B
lists exactly these token kinds).  Payloads
carry the already-resolved values the parser extracts from them:
an integer literal carries the result of i64::from_str_radix (none
models out-of-range), a float token the resolved FloatVal (none models a
failing v.src().parse at parser.rs line 58), a string token its UTF-8
decoding (none models invalid UTF-8). -/
inductive Tok where
  | ws : Tok
  | intTok (v : Option Int) : Tok
  | floatTok (v : Option F64) : Tok
  | strTok (s : Option String) : Tok
  | lparen : Tok
  | rparen : Tok
  | keyword (s : String) : Tok
  | reserved (s : String) : Tok
  | idTok (s : String) : Tok

/-- First-character class of the identifier regex of parser.rs line 16. -/
def identFirst (c : Char) : Bool :=
  c.isAlpha ||
    ['!', '$', '%', '&', '*', '/', ':', '<', '=', '>', '?', '~', '_', '^'].contains c

/-- Continuation-character class of the identifier regex: the class
adds digits, the dot, and the literal range from plus to at-sign
(the dash in the regex class .+-@ forms a character range). -/
def identRest (c : Char) : Bool :=
  identFirst c || c.isDigit || c == '.' || (decide ('+' ≤ c) && decide (c ≤ '@'))

/-- The full anchored identifier pattern of parser.rs line 16. -/
def identMatch (s : String) : Bool :=
  match s.data with
  | [] => false
  | c :: cs => identFirst c && cs.all identRest

/-- Parser control-stack elements (parser.rs lines 23-30). -/
inductive PE where
  | nx : PE
  | ex (e : Expr) : PE
  | la : PE
  | le : PE
  | sa : PE
  | se : PE

/-- Result of the inner collection loop of the E::Le / E::Se arms. -/
inductive CRes where
  | found (v : List Expr) (rest : List PE) : CRes
  | failed (e : ParseError) : CRes
  | hitNx : CRes

/-- Result of running the parser: the source result, a panic (the
Rust unreachable in the collection loops), or fuel exhaustion. -/
inductive POut where
  | done (r : Except ParseError (Option Expr)) : POut
  | panicked : POut
  | fuelOut : POut

/-- `next` (parser.rs lines 151-159): skip whitespace and comments and
hand the parser the following token, if any. -/
def nextTok : List Tok → Option (Tok × List Tok)
  | [] => none
  | Tok.ws :: ts => nextTok ts
  | t :: ts => some (t, ts)

/-- The E::Le collection loop (parser.rs lines 105-115): pop elements
collecting expressions until the matching E::La; a popped E::Le, E::Sa
or E::Se is a delimiter error; popping past the bottom of the stack
ends the loop exactly like finding E::La (the Rust while-let simply
ends); E::Nx is the source's unreachable, a panic.  The accumulator is
consed, which fuses the source's final v.reverse(): the returned list is
in source order. -/
def collectL : List PE → List Expr → CRes
  | [], v => CRes.found v []
  | PE.la :: r, v => CRes.found v r
  | PE.ex x :: r, v => collectL r (x :: v)
  | PE.le :: _, _ => CRes.failed (ParseError.message "\x27)\x27 without matching \x27(\x27")
  | PE.sa :: _, _ => CRes.failed (ParseError.message "\x27[\x27 without matching \x27]\x27")
  | PE.se :: _, _ => CRes.failed (ParseError.message "\x27]\x27 without matching \x27[\x27")
  | PE.nx :: _, _ => CRes.hitNx

/-- The E::Se collection loop (parser.rs lines 121-131). -/
def collectS : List PE → List Expr → CRes
  | [], v => CRes.found v []
  | PE.sa :: r, v => CRes.found v r
  | PE.ex x :: r, v => collectS r (x :: v)
  | PE.le :: _, _ => CRes.failed (ParseError.message "\x27)\x27 without matching \x27(\x27")
  | PE.la :: _, _ => CRes.failed (ParseError.message "\x27(\x27 without matching \x27)\x27")
  | PE.se :: _, _ => CRes.failed (ParseError.message "\x27]\x27 without matching \x27[\x27")
  | PE.nx :: _, _ => CRes.hitNx

/-- The final xs dispatch (parser.rs lines 141-148).  The xs list here
is accumulated by consing the unwind pops, so it is already in source
order and the multi-expression case needs no further reversal. -/
def finishXs : List Expr → Option Expr
  | [] => none
  | [x] => some x
  | xs => some (Expr.list xs)

/-- The parser loop of parser.rs (`pub fn parse`), one source loop
iteration per fuel unit.  The stack st has its head as top.  Each arm
mirrors one arm of the source match: E::Nx reads the next token and
pushes the corresponding elements (Ex then Nx in the source, so Nx ends
on top); E::Ex moves the expression to xs; E::Le / E::Se run the
collection loop and push the formed List / Seq; a popped E::La / E::Sa
is an unclosed delimiter. -/
def runP : Nat → List PE → List Tok → List Expr → POut
  | 0, _, _, _ => POut.fuelOut
  | _ + 1, [], _, xs => POut.done (Except.ok (finishXs xs))
  | f + 1, PE.nx :: st, ts, xs =>
      match nextTok ts with
      | none => runP f st ts xs
      | some (t, ts2) =>
          match t with
          | Tok.ws => runP f (PE.nx :: st) ts2 xs
          | Tok.intTok (some v) => runP f (PE.nx :: PE.ex (Expr.int v) :: st) ts2 xs
          | Tok.intTok none => POut.done (Except.error ParseError.numeric)
          | Tok.floatTok (some v) => runP f (PE.nx :: PE.ex (Expr.float v) :: st) ts2 xs
          | Tok.floatTok none => POut.done (Except.error ParseError.numeric)
          | Tok.strTok (some s) => runP f (PE.nx :: PE.ex (Expr.str s) :: st) ts2 xs
          | Tok.strTok none => POut.done (Except.error ParseError.badUtf8)
          | Tok.lparen => runP f (PE.nx :: PE.la :: st) ts2 xs
          | Tok.rparen => runP f (PE.le :: st) ts2 xs
          | Tok.keyword s =>
              if s == "true" then runP f (PE.nx :: PE.ex (Expr.bool true) :: st) ts2 xs
              else if s == "false" then runP f (PE.nx :: PE.ex (Expr.bool false) :: st) ts2 xs
              else if identMatch s then runP f (PE.nx :: PE.ex (Expr.ident s) :: st) ts2 xs
              else POut.done (Except.error
                (ParseError.message ("invalid token \x27" ++ s ++ "\x27")))
          | Tok.reserved s =>
              if s == "]" then runP f (PE.se :: st) ts2 xs
              else if s == "[" then runP f (PE.nx :: PE.sa :: st) ts2 xs
              else if identMatch s then runP f (PE.nx :: PE.ex (Expr.ident s) :: st) ts2 xs
              else POut.done (Except.error
                (ParseError.message ("invalid token \x27" ++ s ++ "\x27")))
          | Tok.idTok s => runP f (PE.nx :: PE.ex (Expr.ident s) :: st) ts2 xs
  | f + 1, PE.ex x :: st, ts, xs => runP f st ts (x :: xs)
  | f + 1, PE.le :: st, ts, xs =>
      match collectL st [] with
      | CRes.found v rest => runP f (PE.nx :: PE.ex (Expr.list v) :: rest) ts xs
      | CRes.failed e => POut.done (Except.error e)
      | CRes.hitNx => POut.panicked
  | f + 1, PE.se :: st, ts, xs =>
      match collectS st [] with
      | CRes.found v rest => runP f (PE.nx :: PE.ex (Expr.seq v) :: rest) ts xs
      | CRes.failed e => POut.done (Except.error e)
      | CRes.hitNx => POut.panicked
  | _ + 1, PE.la :: _, _, _ =>
      POut.done (Except.error (ParseError.message "unclosed \x27(\x27"))
  | _ + 1, PE.sa :: _, _, _ =>
      POut.done (Except.error (ParseError.message "unclosed \x27[\x27"))

/-- A fuel budget sufficient for any run (proved below): three units per
token plus the weighted size of the initial stack. -/
def parse (ts : List Tok) : POut :=
  runP (3 * ts.length + 2) [PE.nx] ts []

/-- The delimiter discipline the parser actually enforces: a stack scan
over the tokens in which an opener pushes, a closer matching the top
pops, a closer against the wrong opener fails, a closer on the empty
stack is absorbed (the collection loop treats the stack bottom as an
implicit opener), and leftover openers at the end fail. -/
def scanD : List Char → List Tok → Bool
  | d, [] => d.isEmpty
  | d, t :: ts =>
      match t with
      | Tok.lparen => scanD ('(' :: d) ts
      | Tok.rparen =>
          match d with
          | [] => scanD [] ts
          | c :: d2 => if c = '(' then scanD d2 ts else false
      | Tok.reserved s =>
          if s == "[" then scanD ('[' :: d) ts
          else if s == "]" then
            match d with
            | [] => scanD [] ts
            | c :: d2 => if c = '[' then scanD d2 ts else false
          else scanD d ts
      | _ => scanD d ts

/-- Weight of a parser stack element, used for the fuel bound: a pending
E::Le / E::Se costs an extra reduction step. -/
def wPE : PE → Nat
  | PE.le => 3
  | PE.se => 3
  | _ => 1

/-- Weighted size of the parser stack. -/
def wsum : List PE → Nat
  | [] => 0
  | e :: r => wPE e + wsum r

/-- Count of E::Nx, E::Le and E::Se elements: the reachable states of
the parser carry exactly one of these until the token stream is
exhausted, and none afterwards. -/
def nxle : List PE → Nat
  | [] => 0
  | PE.nx :: r => 1 + nxle r
  | PE.le :: r => 1 + nxle r
  | PE.se :: r => 1 + nxle r
  | _ :: r => nxle r

/-- The open-delimiter reading of a parser stack (top first): E::La and
E::Sa contribute their opener, a pending E::Le / E::Se cancels the
nearest opener below (or is absorbed at the bottom), a mismatched
cancellation makes the stack meaningless (none). -/
def absorb : List PE → Option (List Char)
  | [] => some []
  | PE.nx :: r => absorb r
  | PE.ex _ :: r => absorb r
  | PE.la :: r => (absorb r).map (fun d => '(' :: d)
  | PE.sa :: r => (absorb r).map (fun d => '[' :: d)
  | PE.le :: r =>
      match absorb r with
      | some ('(' :: d) => some d
      | some [] => some []
      | _ => none
  | PE.se :: r =>
      match absorb r with
      | some ('[' :: d) => some d
      | some [] => some []
      | _ => none

/-!
The TCP portal worker (portal_worker.rs).  Addresses, routes, socket
addresses and byte payloads are opaque handles to this code (spec
section 2 treats the routing runtime as an external collaborator), so
they are embedded as plain stand-in types; the worker only ever compares
addresses and threads routes through.  The async Context operations
(send, sleep, stop_processor, stop_worker, starting the receive
processor, writing to the tx stream half) are recorded as an effect
trace in the order the source performs them; the owned tx/rx stream
halves are tracked by presence.  The outcome of the fallible
tx.write_all is an explicit txOk input, and the two minicbor decoders
are explicit function arguments. -/

/-- Stand-in for ockam Address (opaque, only compared for equality). -/
abbrev Address : Type := Nat

/-- Stand-in for ockam Route (opaque, only threaded through). -/
abbrev Route : Type := List Nat

/-- Stand-in for a byte payload. -/
abbrev Bytes : Type := List Nat

/-- Modelled from the spec: `PortalMessage`, the portal wire vocabulary
(its declaration is not under src/; spec section 3: the sum Ping, Pong,
Payload(bytes), Disconnect). -/
inductive PortalMessage where
  | ping : PortalMessage
  | pong : PortalMessage
  | payload (b : Bytes) : PortalMessage
  | disconnect : PortalMessage
  deriving DecidableEq

/-- Modelled from the spec: `PortalInternalMessage` (declaration not
under src/; spec section 3: the internal message is Disconnect and never
leaves the node). -/
inductive PortalInternalMessage where
  | disconnect : PortalInternalMessage

/-- `State` (portal_worker.rs lines 19-25). -/
inductive PWState where
  | sendPing (ping_route : Route) : PWState
  | sendPong (pong_route : Route) : PWState
  | receivePong : PWState
  | initialized : PWState

/-- `TypeName` (portal_worker.rs lines 28-32). -/
inductive TypeName where
  | inlet : TypeName
  | outlet : TypeName

/-- Modelled from the spec: the TransportError kinds portal_worker.rs
produces (transport_core is not under src/; spec section 7 lists
PortalInvalidState, Protocol and UnknownRoute), plus the propagated
route-step and decode errors. -/
inductive TransportError where
  | portalInvalidState : TransportError
  | protocol : TransportError
  | unknownRoute : TransportError
  | routeStep : TransportError
  | decodeFailed : TransportError

/-- The worker state (portal_worker.rs lines 40-52); tx and rx record
presence of the owned stream halves. -/
structure TcpPortalWorker where
  state : PWState
  tx : Bool
  rx : Bool
  peer : Nat
  internal_address : Address
  remote_address : Address
  receiver_address : Address
  remote_route : Option Route
  is_disconnecting : Bool
  type_name : TypeName

/-- The observable actions of the worker, in source order. -/
inductive Eff where
  | send (r : Route) (m : PortalMessage) (src : Address) : Eff
  | sleep : Eff
  | stopProcessor (a : Address) : Eff
  | stopWorker (a : Address) : Eff
  | startReceiver (onward : Route) : Eff
  | txWrite (b : Bytes) : Eff

/-- `DisconnectionReason` (portal_worker.rs lines 186-190). -/
inductive DisconnectionReason where
  | failedTx : DisconnectionReason
  | failedRx : DisconnectionReason
  | remote : DisconnectionReason

/-- `start_receiver` (portal_worker.rs lines 198-230): takes the owned
rx half and starts the receive processor; with no rx half it is a
PortalInvalidState error. -/
def start_receiver (w : TcpPortalWorker) (onward_route : Route) :
    Except TransportError (TcpPortalWorker × List Eff) :=
  if w.rx then Except.ok ({w with rx := false}, [Eff.startReceiver onward_route])
  else Except.error TransportError.portalInvalidState

/-- `notify_remote_about_disconnection` (portal_worker.rs lines
232-256): `remote_route.take()` consumes the route; Disconnect is sent
only when a route was present; the 1-second race-avoidance sleep happens
in either case. -/
def notify_remote_about_disconnection (w : TcpPortalWorker) : TcpPortalWorker × List Eff :=
  match w.remote_route with
  | some r =>
      ({w with remote_route := none},
       [Eff.send r PortalMessage.disconnect w.remote_address, Eff.sleep])
  | none => (w, [Eff.sleep])

/-- `stop_receiver` (portal_worker.rs lines 258-278): sleep, then stop
the receive processor ignoring an already-stopped error. -/
def stop_receiver (w : TcpPortalWorker) : TcpPortalWorker × List Eff :=
  (w, [Eff.sleep, Eff.stopProcessor w.receiver_address])

/-- `start_disconnection` (portal_worker.rs lines 281-309): set the
is_disconnecting latch, act per reason, then stop the worker via its
internal address. -/
def start_disconnection (w : TcpPortalWorker) (reason : DisconnectionReason) :
    TcpPortalWorker × List Eff :=
  let w1 := {w with is_disconnecting := true}
  match reason with
  | DisconnectionReason.failedTx =>
      let p := notify_remote_about_disconnection w1
      (p.1, p.2 ++ [Eff.stopWorker p.1.internal_address])
  | DisconnectionReason.failedRx =>
      let p := notify_remote_about_disconnection w1
      let q := stop_receiver p.1
      (q.1, p.2 ++ q.2 ++ [Eff.stopWorker q.1.internal_address])
  | DisconnectionReason.remote =>
      let q := stop_receiver w1
      (q.1, q.2 ++ [Eff.stopWorker q.1.internal_address])

/-- A routed message as handle_message sees it: the onward route (whose
first hop is this worker), the return route, and the payload. -/
structure RoutedMsg where
  onward : List Address
  return_route : Route
  payload : Bytes

/-- `handle_message` (portal_worker.rs lines 378-483).  decP / decI are
the PortalMessage / PortalInternalMessage decoders (minicbor, external);
txOk is the outcome of tx.write_all.  Returns the Result, the worker
after the call, and the effect trace. -/
def handle_message (decP : Bytes → Option PortalMessage)
    (decI : Bytes → Option PortalInternalMessage) (txOk : Bool)
    (w : TcpPortalWorker) (msg : RoutedMsg) :
    Except TransportError Unit × TcpPortalWorker × List Eff :=
  if w.is_disconnecting then (Except.ok (), w, [])
  else
    match msg.onward with
    | [] => (Except.error TransportError.routeStep, w, [])
    | recipient :: restRoute =>
      if restRoute ≠ [] then (Except.error TransportError.unknownRoute, w, [])
      else
        match w.state with
        | PWState.receivePong =>
            if recipient = w.internal_address then
              (Except.error TransportError.portalInvalidState, w, [])
            else
              match decP msg.payload with
              | none => (Except.error TransportError.decodeFailed, w, [])
              | some m =>
                  if m = PortalMessage.pong then
                    match start_receiver w msg.return_route with
                    | Except.error e => (Except.error e, w, [])
                    | Except.ok (w2, effs) =>
                        (Except.ok (),
                         {w2 with remote_route := some msg.return_route,
                                  state := PWState.initialized},
                         effs)
                  else (Except.error TransportError.protocol, w, [])
        | PWState.initialized =>
            if recipient = w.internal_address then
              match decI msg.payload with
              | none => (Except.error TransportError.decodeFailed, w, [])
              | some PortalInternalMessage.disconnect =>
                  let p := start_disconnection w DisconnectionReason.failedRx
                  (Except.ok (), p.1, p.2)
            else
              match decP msg.payload with
              | none => (Except.error TransportError.decodeFailed, w, [])
              | some (PortalMessage.payload b) =>
                  if w.tx then
                    if txOk then (Except.ok (), w, [Eff.txWrite b])
                    else
                      let p := start_disconnection w DisconnectionReason.failedTx
                      (Except.ok (), p.1, Eff.txWrite b :: p.2)
                  else (Except.error TransportError.portalInvalidState, w, [])
              | some PortalMessage.disconnect =>
                  let p := start_disconnection w DisconnectionReason.remote
                  (Except.ok (), p.1, p.2)
              | some PortalMessage.ping => (Except.error TransportError.protocol, w, [])
              | some PortalMessage.pong => (Except.error TransportError.protocol, w, [])
        | PWState.sendPing _ => (Except.error TransportError.portalInvalidState, w, [])
        | PWState.sendPong _ => (Except.error TransportError.portalInvalidState, w, [])

/-- Number of Disconnect notifications to the remote side in an effect
trace. -/
def disconnectSends : List Eff → Nat
  | [] => 0
  | Eff.send _ PortalMessage.disconnect _ :: es => 1 + disconnectSends es
  | _ :: es => disconnectSends es

/-!
The CLI state directory (state.rs, VaultsState).  The filesystem is
embedded as an association list from absolute paths (component lists) to
entries (regular files with contents, or symlinks); the std filesystem
calls used by set_default are modelled by their documented semantics:
std::os::unix::fs::symlink fails with EEXIST when the link path already
exists (whatever it is), and read_to_string follows symlink chains.
serde_json parsing is an explicit function parameter. -/

/-- A filesystem path, as a list of components. -/
abbrev FsPath : Type := List String

/-- A filesystem entry: a regular file with contents, or a symlink. -/
inductive FsEntry where
  | file (contents : String) : FsEntry
  | symlink (target : FsPath) : FsEntry

/-- The filesystem: an association list from paths to entries. -/
abbrev Fs : Type := List (FsPath × FsEntry)

/-- The filesystem errors set_default can surface. -/
inductive FsError where
  | alreadyExists : FsError
  | notFound : FsError
  | tooManyLinks : FsError
  | invalidData : FsError

/-- Path lookup in the filesystem. -/
def Fs.lookup (fs : Fs) (p : FsPath) : Option FsEntry :=
  match fs with
  | [] => none
  | q :: rest => if q.1 = p then some q.2 else Fs.lookup rest p

/-- `std::os::unix::fs::symlink(original, link)`: creates the symlink,
failing with EEXIST when the link path already exists (even as a
dangling symlink; the existing entry is not touched). -/
def symlinkOp (fs : Fs) (original link : FsPath) : Except FsError Fs :=
  if (Fs.lookup fs link).isSome then Except.error FsError.alreadyExists
  else Except.ok ((link, FsEntry.symlink original) :: fs)

/-- `std::fs::read_to_string`, following symlink chains (bounded). -/
def readToString : Nat → Fs → FsPath → Except FsError String
  | 0, _, _ => Except.error FsError.tooManyLinks
  | f + 1, fs, p =>
      match Fs.lookup fs p with
      | none => Except.error FsError.notFound
      | some (FsEntry.file c) => Except.ok c
      | some (FsEntry.symlink t) => readToString f fs t

/-- `VaultConfig` (state.rs lines 135-139): currently only Fs variant. -/
inductive VaultConfig where
  | fs (path : FsPath) : VaultConfig

/-- `VaultState` (state.rs lines 129-133). -/
structure VaultState where
  path : FsPath
  config : VaultConfig

/-- `VaultsState` (state.rs lines 61-63): the vaults directory. -/
structure VaultsState where
  dir : FsPath

/-- `VaultsState::set_default` (state.rs lines 108-126): build the
original path dir/name.json and the link path dir/default, create the
symlink (propagating its failure), read the original config file, parse
it (pj models serde_json::from_str), and return the named vault's
state.  Returns the updated filesystem together with the result. -/
def set_default (pj : String → Option VaultConfig) (fsys : Fs)
    (st : VaultsState) (name : String) : Except FsError (Fs × VaultState) :=
  let original := st.dir ++ [name ++ ".json"]
  let link := st.dir ++ ["default"]
  match symlinkOp fsys original link with
  | Except.error e => Except.error e
  | Except.ok fs2 =>
      match readToString 32 fs2 original with
      | Except.error e => Except.error e
      | Except.ok contents =>
          match pj contents with
          | none => Except.error FsError.invalidData
          | some config => Except.ok (fs2, { path := original, config := config })

theorem f64Eq_symm (a b : F64) : f64Eq a b = f64Eq b a := by
  cases a <;> cases b <;> simp [f64Eq, BEq.comm]

theorem f64Eq_trans (a b c : F64) (hab : f64Eq a b = true) (hbc : f64Eq b c = true) :
    f64Eq a c = true := by
  cases a <;> cases b <;> cases c <;> simp_all [f64Eq]

theorem roundNat53_eq_self (n : Nat) (h : n ≤ 2 ^ 53) : roundNat53 n = n := by
  rcases lt_or_eq_of_le h with h | h
  · unfold roundNat53; rw [if_pos h]
  · subst h; decide

theorem roundInt53_eq_self (i : Int) (h : i.natAbs ≤ 2 ^ 53) : roundInt53 i = i := by
  unfold roundInt53
  split <;> rw [roundNat53_eq_self _ h] <;> omega

theorem castF64_small (i : Int) (h : i.natAbs ≤ 2 ^ 53) : castF64 i = F64.fin (i : ℚ) := by
  simp [castF64, roundInt53_eq_self i h]

mutual

theorem exprEq_symm : ∀ a b : Expr, exprEq a b = exprEq b a
  | Expr.str _, b => by cases b <;> simp [exprEq, BEq.comm]
  | Expr.int _, b => by cases b <;> simp [exprEq, BEq.comm, f64Eq_symm]
  | Expr.float _, b => by cases b <;> simp [exprEq, BEq.comm, f64Eq_symm]
  | Expr.bool _, b => by cases b <;> simp [exprEq, BEq.comm]
  | Expr.ident _, b => by cases b <;> simp [exprEq, BEq.comm]
  | Expr.seq as, b => by cases b <;> simp [exprEq, listEq_symm as]
  | Expr.list as, b => by cases b <;> simp [exprEq, listEq_symm as]

theorem listEq_symm : ∀ xs ys : List Expr, listEq xs ys = listEq ys xs
  | [], ys => by cases ys <;> simp [listEq]
  | x :: xs, ys => by
      cases ys <;> simp [listEq]
      rw [exprEq_symm, listEq_symm xs]

end



theorem f64Eq_castF64_inj (i k : Int) (f : F64) (hi : i.natAbs ≤ 2 ^ 53)
    (hk : k.natAbs ≤ 2 ^ 53) (h1 : f64Eq (castF64 i) f = true)
    (h2 : f64Eq f (castF64 k) = true) : i = k := by
  rw [castF64_small i hi] at h1
  rw [castF64_small k hk] at h2
  cases f with
  | fin q =>
      simp only [f64Eq, beq_iff_eq] at h1 h2
      exact_mod_cast h1.trans h2
  | nan => simp [f64Eq] at h1
  | inf s => simp [f64Eq] at h1

mutual

theorem exprEq_trans : ∀ a b c : Expr, intsSmall a = true → intsSmall b = true →
    intsSmall c = true → exprEq a b = true → exprEq b c = true → exprEq a c = true
  | Expr.str _, b, c, _, _, _, hab, hbc => by
      cases b <;> cases c <;> simp_all [exprEq]
  | Expr.bool _, b, c, _, _, _, hab, hbc => by
      cases b <;> cases c <;> simp_all [exprEq]
  | Expr.ident _, b, c, _, _, _, hab, hbc => by
      cases b <;> cases c <;> simp_all [exprEq]
  | Expr.int i, b, c, ha, hb, hc, hab, hbc => by
      cases b <;> cases c <;> simp_all [exprEq, intsSmall] <;>
        solve_by_elim [f64Eq_trans, f64Eq_castF64_inj]
  | Expr.float fa, b, c, ha, hb, hc, hab, hbc => by
      cases b <;> cases c <;> simp_all [exprEq, intsSmall] <;>
        solve_by_elim [f64Eq_trans]
  | Expr.seq as, b, c, ha, hb, hc, hab, hbc => by
      cases b <;> cases c <;> simp_all [exprEq, intsSmall] <;>
        exact listEq_trans _ _ _ ha hb hc hab hbc
  | Expr.list as, b, c, ha, hb, hc, hab, hbc => by
      cases b <;> cases c <;> simp_all [exprEq, intsSmall] <;>
        exact listEq_trans _ _ _ ha hb hc hab hbc
termination_by a b c ha hb hc hab hbc => sizeOf a

theorem listEq_trans : ∀ xs ys zs : List Expr, listSmall xs = true → listSmall ys = true →
    listSmall zs = true → listEq xs ys = true → listEq ys zs = true → listEq xs zs = true
  | [], ys, zs, _, _, _, hab, hbc => by
      cases ys <;> cases zs <;> simp_all [listEq]
  | x :: xs, ys, zs, hx, hy, hz, hab, hbc => by
      cases ys with
      | nil => simp [listEq] at hab
      | cons y ys =>
          cases zs with
          | nil => simp [listEq] at hbc
          | cons z zs =>
              simp only [listEq, Bool.and_eq_true] at hab hbc ⊢
              simp only [listSmall, Bool.and_eq_true] at hx hy hz
              exact ⟨exprEq_trans x y z hx.1 hy.1 hz.1 hab.1 hbc.1,
                listEq_trans xs ys zs hx.2 hy.2 hz.2 hab.2 hbc.2⟩
termination_by xs ys zs hx hy hz hab hbc => sizeOf xs

end

mutual

theorem exprEq_refl : ∀ a : Expr, nanFree a = true → exprEq a a = true
  | Expr.str _, _ => by simp [exprEq]
  | Expr.bool _, _ => by simp [exprEq]
  | Expr.ident _, _ => by simp [exprEq]
  | Expr.int _, _ => by simp [exprEq]
  | Expr.float f, h => by
      cases f <;> simp_all [exprEq, f64Eq, nanFree]
  | Expr.seq as, h => by
      simp only [exprEq]
      exact listEq_refl as (by simpa [nanFree] using h)
  | Expr.list as, h => by
      simp only [exprEq]
      exact listEq_refl as (by simpa [nanFree] using h)

theorem listEq_refl : ∀ xs : List Expr, listNanFree xs = true → listEq xs xs = true
  | [], _ => by simp [listEq]
  | x :: xs, h => by
      simp only [listNanFree, Bool.and_eq_true] at h
      simp only [listEq, Bool.and_eq_true]
      exact ⟨exprEq_refl x h.1, listEq_refl xs h.2⟩

end

theorem evalLoop_nil_env (f : Nat) (args : List Expr) (env env2 : Env) :
    evalLoop f [] args env = evalLoop f [] args env2 := by
  cases f <;> rfl

theorem evalLoop_exists_step (f : Nat) (es : List Expr) (rest : List Op)
    (args : List Expr) (env : Env) :
    evalLoop (f + 1) (Op.eval (Expr.list (Expr.ident "exists?" :: es)) :: rest) args env =
      (match existsScan env es with
       | Except.ok b => evalLoop f rest (Expr.bool b :: args) env
       | Except.error e => EvalOut.err e) := rfl

theorem existsScan_contains_congr (env env2 : Env)
    (h : ∀ id, Env.contains env id = Env.contains env2 id) :
    ∀ es, existsScan env es = existsScan env2 es := by
  intro es
  induction es with
  | nil => rfl
  | cons e es ih =>
      cases e <;> simp [existsScan, h, ih]

theorem existsScan_reaches_non_ident (env : Env) (e : Expr) (post : List Expr)
    (he : ∀ id, e ≠ Expr.ident id) :
    ∀ pre : List Expr,
      (∀ x ∈ pre, ∃ id, x = Expr.ident id ∧ Env.contains env id = true) →
      existsScan env (pre ++ e :: post) =
        Except.error (EvalError.invalidType e "\x27exists?\x27 expects identifiers") := by
  intro pre
  induction pre with
  | nil =>
      intro _
      cases e <;> simp [existsScan]
      exact absurd rfl (he _)
  | cons x pre ih =>
      intro hx
      obtain ⟨id, rfl, hc⟩ := hx x (by simp)
      simp only [List.cons_append, existsScan, hc, if_pos]
      exact ih fun y hy => hx y (by simp [hy])

/-- Claim C1: the spec says eval never panics, for any nesting of
operator forms.  The code checks `args.len() < 2` instead of the operand
count before computing `args[args.len() - n]`, so a zero-operand
comparison nested where two evaluated values already sit on the argument
stack indexes out of bounds: evaluating (and true true (=)) in the
empty environment panics. -/
theorem claim1_zero_arity_eq_panics :
    eval 20 (Expr.list [Expr.ident "and", Expr.bool true, Expr.bool true,
      Expr.list [Expr.ident "="]]) [] = EvalOut.panicked := rfl

/-- Claim C3, counterexample: the claim says (and true false undefined)
evaluates to Bool(false) without error; the code schedules every operand
before Op::And fires, so the unbound identifier is looked up and the
evaluation returns the lookup error instead of a value. -/
theorem claim3_counterexample :
    eval 40 (Expr.list [Expr.ident "and", Expr.bool true, Expr.bool false,
        Expr.ident "undefined"]) [] =
      EvalOut.err (EvalError.bindingNotFound "undefined") ∧
    eval 40 (Expr.list [Expr.ident "and", Expr.bool true, Expr.bool false,
        Expr.ident "undefined"]) [] ≠ EvalOut.ok (Expr.bool false) :=
  ⟨rfl, fun h => EvalOut.noConfusion h⟩

/-- Claim C3, amended: (and true (= 1 1) (or false true)) evaluates to
Bool(true); but `and` evaluates all operands eagerly, so
(and true false undefined) raises the lookup error for `undefined`;
the short-circuit applies only to the scan of the already-evaluated
values, so (and true false 5) returns Bool(false) without a type
error for 5. -/
theorem claim3_amended :
    eval 40 (Expr.list [Expr.ident "and", Expr.bool true,
        Expr.list [Expr.ident "=", Expr.int 1, Expr.int 1],
        Expr.list [Expr.ident "or", Expr.bool false, Expr.bool true]]) [] =
      EvalOut.ok (Expr.bool true) ∧
    eval 40 (Expr.list [Expr.ident "and", Expr.bool true, Expr.bool false,
        Expr.ident "undefined"]) [] =
      EvalOut.err (EvalError.bindingNotFound "undefined") ∧
    eval 40 (Expr.list [Expr.ident "and", Expr.bool true, Expr.bool false,
        Expr.int 5]) [] = EvalOut.ok (Expr.bool false) :=
  ⟨rfl, rfl, rfl⟩

/-- Claim C4: the spec says a comparison with fewer than two operands is
a Malformed arity error in every environment and wherever it occurs.
At top level this holds (second conjunct, for every environment), but
the code tests `args.len() < 2` on the whole argument stack rather than
the operand count, so (= 1) nested under (and true true _) passes the
check and the whole expression evaluates to Bool(true). -/
theorem claim4_nested_arity_check_bypassed :
    eval 20 (Expr.list [Expr.ident "and", Expr.bool true, Expr.bool true,
        Expr.list [Expr.ident "=", Expr.int 1]]) [] = EvalOut.ok (Expr.bool true) ∧
    (∀ env : Env, eval 10 (Expr.list [Expr.ident "=", Expr.int 1]) env =
      EvalOut.err (EvalError.malformed "\x27=\x27 requires at least two arguments")) ∧
    (∀ env : Env, eval 10 (Expr.list [Expr.ident "<", Expr.int 1]) env =
      EvalOut.err (EvalError.malformed "\x27<\x27 requires at least two arguments")) ∧
    (∀ env : Env, eval 10 (Expr.list [Expr.ident ">", Expr.int 1]) env =
      EvalOut.err (EvalError.malformed "\x27>\x27 requires at least two arguments")) :=
  ⟨rfl, fun _ => rfl, fun _ => rfl, fun _ => rfl⟩

/-- Claim C6, counterexample: equality is not transitive.  Lifting i64
to f64 rounds to 53 bits, so Int(2^53) == Float(2^53.0) and
Float(2^53.0) == Int(2^53 + 1), yet Int(2^53) != Int(2^53 + 1). -/
theorem claim6_counterexample :
    exprEq (Expr.int 9007199254740992) (Expr.float (F64.fin 9007199254740992)) = true ∧
    exprEq (Expr.float (F64.fin 9007199254740992)) (Expr.int 9007199254740993) = true ∧
    exprEq (Expr.int 9007199254740992) (Expr.int 9007199254740993) = false :=
  ⟨by decide, by decide, by decide⟩

/-- Claim C6, amended: Expr equality is symmetric; it is reflexive on
NaN-free expressions; and it is transitive provided every Int payload
has magnitude at most 2^53 (beyond that the Int to f64 lift collapses
distinct integers, breaking transitivity). -/
theorem claim6_equality_equivalence :
    (∀ a b : Expr, exprEq a b = exprEq b a) ∧
    (∀ a : Expr, nanFree a = true → exprEq a a = true) ∧
    (∀ a b c : Expr, intsSmall a = true → intsSmall b = true → intsSmall c = true →
      exprEq a b = true → exprEq b c = true → exprEq a c = true) :=
  ⟨exprEq_symm, exprEq_refl, exprEq_trans⟩

theorem claim6_equality_equivalence_witness :
    exprEq (Expr.int 3) (Expr.float (F64.fin 3)) = exprEq (Expr.float (F64.fin 3)) (Expr.int 3) ∧
    exprEq (Expr.seq [Expr.int 1]) (Expr.seq [Expr.int 1]) = true ∧
    exprEq (Expr.int 1) (Expr.float (F64.fin 1)) = true :=
  ⟨claim6_equality_equivalence.1 (Expr.int 3) (Expr.float (F64.fin 3)),
   claim6_equality_equivalence.2.1 (Expr.seq [Expr.int 1]) (by decide),
   claim6_equality_equivalence.2.2 (Expr.int 1) (Expr.int 1) (Expr.float (F64.fin 1))
     (by decide) (by decide) (by decide) (by decide) (by decide)⟩

/-- Claim C7, counterexample: the claim says a non-identifier operand of
exists? yields an InvalidType error; but the scan stops at the first
absent identifier, so with only a bound, (exists? b 5) evaluates to
Bool(false) and the non-identifier operand 5 is never type-checked. -/
theorem claim7_counterexample :
    eval 20 (Expr.list [Expr.ident "exists?", Expr.ident "b", Expr.int 5])
        ([("a", Expr.int 1)] : Env) = EvalOut.ok (Expr.bool false) ∧
    ∀ msg, eval 20 (Expr.list [Expr.ident "exists?", Expr.ident "b", Expr.int 5])
        ([("a", Expr.int 1)] : Env) ≠
      EvalOut.err (EvalError.invalidType (Expr.int 5) msg) :=
  ⟨rfl, fun _ h => EvalOut.noConfusion h⟩

/-- Claim C7, amended: with an environment binding only a, (exists? a b)
evaluates to Bool(false) and (exists? a) to Bool(true); exists? never
resolves operands (its result is unchanged under any environment with
the same bound names, and an identifier bound to an undefined identifier
still counts as present); a non-identifier operand yields InvalidType
exactly when the left-to-right scan reaches it, i.e. when all operands
before it are identifiers bound in the environment. -/
theorem claim7_exists_structural :
    eval 20 (Expr.list [Expr.ident "exists?", Expr.ident "a", Expr.ident "b"])
        ([("a", Expr.int 1)] : Env) = EvalOut.ok (Expr.bool false) ∧
    eval 20 (Expr.list [Expr.ident "exists?", Expr.ident "a"])
        ([("a", Expr.int 1)] : Env) = EvalOut.ok (Expr.bool true) ∧
    eval 20 (Expr.list [Expr.ident "exists?", Expr.ident "a"])
        ([("a", Expr.ident "undefined")] : Env) = EvalOut.ok (Expr.bool true) ∧
    (∀ (f : Nat) (es : List Expr) (env env2 : Env),
      (∀ id, Env.contains env id = Env.contains env2 id) →
      eval f (Expr.list (Expr.ident "exists?" :: es)) env =
        eval f (Expr.list (Expr.ident "exists?" :: es)) env2) ∧
    (∀ (env : Env) (pre : List Expr) (e : Expr) (post : List Expr),
      (∀ x ∈ pre, ∃ id, x = Expr.ident id ∧ Env.contains env id = true) →
      (∀ id, e ≠ Expr.ident id) →
      eval 5 (Expr.list (Expr.ident "exists?" :: (pre ++ e :: post))) env =
        EvalOut.err (EvalError.invalidType e "\x27exists?\x27 expects identifiers")) := by
  refine ⟨rfl, rfl, rfl, ?_, ?_⟩
  · intro f es env env2 h
    cases f with
    | zero => rfl
    | succ f =>
        unfold eval
        rw [evalLoop_exists_step, evalLoop_exists_step,
          existsScan_contains_congr env env2 h es]
        cases existsScan env2 es with
        | ok b => exact evalLoop_nil_env f (Expr.bool b :: []) env env2
        | error e => rfl
  · intro env pre e post hpre he
    unfold eval
    rw [evalLoop_exists_step, existsScan_reaches_non_ident env e post he pre hpre]

theorem claim7_exists_structural_witness :
    eval 20 (Expr.list [Expr.ident "exists?", Expr.ident "a"]) ([("a", Expr.int 1)] : Env) =
      eval 20 (Expr.list [Expr.ident "exists?", Expr.ident "a"])
        ([("a", Expr.bool false)] : Env) ∧
    eval 5 (Expr.list [Expr.ident "exists?", Expr.int 7]) ([] : Env) =
      EvalOut.err (EvalError.invalidType (Expr.int 7) "\x27exists?\x27 expects identifiers") :=
  ⟨claim7_exists_structural.2.2.2.1 20 [Expr.ident "a"]
      ([("a", Expr.int 1)] : Env) ([("a", Expr.bool false)] : Env)
      (fun id => by by_cases h : ("a" == id) = true <;> simp [Env.contains, Env.get, h]),
   claim7_exists_structural.2.2.2.2 ([] : Env) [] (Expr.int 7) []
      (by simp) (fun id h => Expr.noConfusion h)⟩

theorem nextTok_length : ∀ ts t ts2, nextTok ts = some (t, ts2) → ts2.length < ts.length := by
  intro ts
  induction ts with
  | nil => intro t ts2 h; simp [nextTok] at h
  | cons x ts ih =>
      intro t ts2 h
      cases x <;> simp only [nextTok] at h
      case ws =>
          have h3 := ih _ _ h
          simp
          omega
      all_goals
        injection h with h
        injection h with h1 h2
        subst h2
        simp

theorem nextTok_none_scanD : ∀ ts d, nextTok ts = none → scanD d ts = d.isEmpty := by
  intro ts
  induction ts with
  | nil => intro d _; rfl
  | cons x ts ih =>
      intro d h
      cases x <;> simp only [nextTok] at h
      case ws => simp [scanD, ih d h]
      all_goals exact absurd h (by simp)

theorem nextTok_some_scanD :
    ∀ ts t ts2, nextTok ts = some (t, ts2) → ∀ d, scanD d ts = scanD d (t :: ts2) := by
  intro ts
  induction ts with
  | nil => intro t ts2 h; simp [nextTok] at h
  | cons x ts ih =>
      intro t ts2 h d
      cases x <;> simp only [nextTok] at h
      case ws => rw [show scanD d (Tok.ws :: ts) = scanD d ts from rfl, ih _ _ h]
      all_goals (injection h with h; injection h with h1 h2; subst h1; subst h2; rfl)

theorem collectL_wsum :
    ∀ st acc v rest, collectL st acc = CRes.found v rest → wsum rest ≤ wsum st := by
  intro st
  induction st with
  | nil => intro acc v rest h; injection h with h1 h2; subst h2; simp
  | cons x st ih =>
      intro acc v rest h
      cases x <;> simp only [collectL] at h
      case la => injection h with h1 h2; subst h2; simp [wsum, wPE]
      case ex => have := ih _ _ _ h; simp [wsum, wPE]; omega
      all_goals exact CRes.noConfusion h

theorem collectS_wsum :
    ∀ st acc v rest, collectS st acc = CRes.found v rest → wsum rest ≤ wsum st := by
  intro st
  induction st with
  | nil => intro acc v rest h; injection h with h1 h2; subst h2; simp
  | cons x st ih =>
      intro acc v rest h
      cases x <;> simp only [collectS] at h
      case sa => injection h with h1 h2; subst h2; simp [wsum, wPE]
      case ex => have := ih _ _ _ h; simp [wsum, wPE]; omega
      all_goals exact CRes.noConfusion h

theorem collectL_nxle :
    ∀ st acc v rest, collectL st acc = CRes.found v rest → nxle rest ≤ nxle st := by
  intro st
  induction st with
  | nil => intro acc v rest h; injection h with h1 h2; subst h2; simp [nxle]
  | cons x st ih =>
      intro acc v rest h
      cases x <;> simp only [collectL] at h
      case la => injection h with h1 h2; subst h2; simp [nxle]
      case ex => have := ih _ _ _ h; simp [nxle]; omega
      all_goals exact CRes.noConfusion h

theorem collectS_nxle :
    ∀ st acc v rest, collectS st acc = CRes.found v rest → nxle rest ≤ nxle st := by
  intro st
  induction st with
  | nil => intro acc v rest h; injection h with h1 h2; subst h2; simp [nxle]
  | cons x st ih =>
      intro acc v rest h
      cases x <;> simp only [collectS] at h
      case sa => injection h with h1 h2; subst h2; simp [nxle]
      case ex => have := ih _ _ _ h; simp [nxle]; omega
      all_goals exact CRes.noConfusion h

theorem collectL_no_hitNx : ∀ st acc, nxle st = 0 → collectL st acc ≠ CRes.hitNx := by
  intro st
  induction st with
  | nil => intro acc _; simp [collectL]
  | cons x st ih =>
      intro acc h
      cases x <;> simp only [collectL] <;> simp_all [nxle]

theorem collectS_no_hitNx : ∀ st acc, nxle st = 0 → collectS st acc ≠ CRes.hitNx := by
  intro st
  induction st with
  | nil => intro acc _; simp [collectS]
  | cons x st ih =>
      intro acc h
      cases x <;> simp only [collectS] <;> simp_all [nxle]

theorem collectL_absorb :
    ∀ st acc v rest, collectL st acc = CRes.found v rest →
      absorb st = (absorb rest).map (fun d => '(' :: d) ∨
        (rest = [] ∧ absorb st = some []) := by
  intro st
  induction st with
  | nil => intro acc v rest h; injection h with h1 h2; subst h2; exact Or.inr ⟨rfl, rfl⟩
  | cons x st ih =>
      intro acc v rest h
      cases x <;> simp only [collectL] at h
      case la => injection h with h1 h2; subst h2; exact Or.inl rfl
      case ex => exact ih _ _ _ h
      all_goals exact CRes.noConfusion h

theorem collectS_absorb :
    ∀ st acc v rest, collectS st acc = CRes.found v rest →
      absorb st = (absorb rest).map (fun d => '[' :: d) ∨
        (rest = [] ∧ absorb st = some []) := by
  intro st
  induction st with
  | nil => intro acc v rest h; injection h with h1 h2; subst h2; exact Or.inr ⟨rfl, rfl⟩
  | cons x st ih =>
      intro acc v rest h
      cases x <;> simp only [collectS] at h
      case sa => injection h with h1 h2; subst h2; exact Or.inl rfl
      case ex => exact ih _ _ _ h
      all_goals exact CRes.noConfusion h

theorem absorb_ne_lparen_collectL :
    ∀ st c d, absorb st = some (c :: d) → c ≠ '(' →
      ∀ acc, (∃ e, collectL st acc = CRes.failed e) ∨ collectL st acc = CRes.hitNx := by
  intro st
  induction st with
  | nil => intro c d h _ acc; simp [absorb] at h
  | cons x st ih =>
      intro c d h hc acc
      cases x <;> simp only [absorb] at h
      case nx => exact Or.inr rfl
      case ex => exact ih _ _ h hc _
      case la =>
          rcases Option.map_eq_some'.mp h with ⟨d2, _, hcons⟩
          injection hcons with hc2 _
          exact absurd hc2.symm hc
      case sa => exact Or.inl ⟨_, rfl⟩
      case le => exact Or.inl ⟨_, rfl⟩
      case se => exact Or.inl ⟨_, rfl⟩

theorem absorb_ne_lbracket_collectS :
    ∀ st c d, absorb st = some (c :: d) → c ≠ '[' →
      ∀ acc, (∃ e, collectS st acc = CRes.failed e) ∨ collectS st acc = CRes.hitNx := by
  intro st
  induction st with
  | nil => intro c d h _ acc; simp [absorb] at h
  | cons x st ih =>
      intro c d h hc acc
      cases x <;> simp only [absorb] at h
      case nx => exact Or.inr rfl
      case ex => exact ih _ _ h hc _
      case sa =>
          rcases Option.map_eq_some'.mp h with ⟨d2, _, hcons⟩
          injection hcons with hc2 _
          exact absurd hc2.symm hc
      case la => exact Or.inl ⟨_, rfl⟩
      case le => exact Or.inl ⟨_, rfl⟩
      case se => exact Or.inl ⟨_, rfl⟩

theorem runP_no_fuelOut :
    ∀ (f : Nat) (st : List PE) (ts : List Tok) (xs : List Expr),
      3 * ts.length + wsum st < f → runP f st ts xs ≠ POut.fuelOut := by
  intro f
  induction f with
  | zero => intro st ts xs h; omega
  | succ f ih =>
      intro st ts xs h
      cases st with
      | nil => simp [runP]
      | cons x st =>
          cases x
          case ex e =>
              simp only [runP]
              exact ih st ts (e :: xs) (by simp [wsum, wPE] at h; omega)
          case la => simp [runP]
          case sa => simp [runP]
          case le =>
              simp only [runP]
              cases hc : collectL st [] with
              | found v rest =>
                  have hw := collectL_wsum st [] v rest hc
                  exact ih _ ts xs (by simp [wsum, wPE] at h ⊢; omega)
              | failed e => simp
              | hitNx => simp
          case se =>
              simp only [runP]
              cases hc : collectS st [] with
              | found v rest =>
                  have hw := collectS_wsum st [] v rest hc
                  exact ih _ ts xs (by simp [wsum, wPE] at h ⊢; omega)
              | failed e => simp
              | hitNx => simp
          case nx =>
              cases hnt : nextTok ts with
              | none =>
                  simp only [runP, hnt]
                  exact ih st ts xs (by simp [wsum, wPE] at h; omega)
              | some tt =>
                  obtain ⟨t, ts2⟩ := tt
                  have hlen := nextTok_length ts t ts2 hnt
                  cases t <;> simp only [runP, hnt]
                  case ws =>
                      exact ih _ ts2 xs (by simp [wsum, wPE] at h ⊢; omega)
                  case intTok v =>
                      cases v with
                      | none => simp
                      | some v =>
                          exact ih _ ts2 xs (by simp [wsum, wPE] at h ⊢; omega)
                  case floatTok v =>
                      cases v with
                      | none => simp
                      | some v =>
                          exact ih _ ts2 xs (by simp [wsum, wPE] at h ⊢; omega)
                  case strTok v =>
                      cases v with
                      | none => simp
                      | some v =>
                          exact ih _ ts2 xs (by simp [wsum, wPE] at h ⊢; omega)
                  case lparen =>
                      exact ih _ ts2 xs (by simp [wsum, wPE] at h ⊢; omega)
                  case rparen =>
                      exact ih _ ts2 xs (by simp [wsum, wPE] at h ⊢; omega)
                  case keyword s =>
                      split
                      · exact ih _ ts2 xs (by simp [wsum, wPE] at h ⊢; omega)
                      · split
                        · exact ih _ ts2 xs (by simp [wsum, wPE] at h ⊢; omega)
                        · split
                          · exact ih _ ts2 xs (by simp [wsum, wPE] at h ⊢; omega)
                          · simp
                  case reserved s =>
                      split
                      · exact ih _ ts2 xs (by simp [wsum, wPE] at h ⊢; omega)
                      · split
                        · exact ih _ ts2 xs (by simp [wsum, wPE] at h ⊢; omega)
                        · split
                          · exact ih _ ts2 xs (by simp [wsum, wPE] at h ⊢; omega)
                          · simp
                  case idTok s =>
                      exact ih _ ts2 xs (by simp [wsum, wPE] at h ⊢; omega)

theorem parse_not_fuelOut (ts : List Tok) : parse ts ≠ POut.fuelOut := by
  unfold parse
  exact runP_no_fuelOut _ _ _ _ (by simp [wsum, wPE])

theorem runP_no_panicked :
    ∀ (f : Nat) (st : List PE) (ts : List Tok) (xs : List Expr),
      nxle st ≤ 1 → runP f st ts xs ≠ POut.panicked := by
  intro f
  induction f with
  | zero => intro st ts xs _; simp [runP]
  | succ f ih =>
      intro st ts xs h
      cases st with
      | nil => simp [runP]
      | cons x st =>
          cases x
          case ex e =>
              simp only [runP]
              exact ih st ts (e :: xs) (by simp [nxle] at h ⊢; omega)
          case la => simp [runP]
          case sa => simp [runP]
          case le =>
              have h0 : nxle st = 0 := by simp [nxle] at h; omega
              simp only [runP]
              cases hc : collectL st [] with
              | found v rest =>
                  have hn := collectL_nxle st [] v rest hc
                  exact ih _ ts xs (by simp [nxle] at hn ⊢; omega)
              | failed e => simp
              | hitNx => exact absurd hc (collectL_no_hitNx st [] h0)
          case se =>
              have h0 : nxle st = 0 := by simp [nxle] at h; omega
              simp only [runP]
              cases hc : collectS st [] with
              | found v rest =>
                  have hn := collectS_nxle st [] v rest hc
                  exact ih _ ts xs (by simp [nxle] at hn ⊢; omega)
              | failed e => simp
              | hitNx => exact absurd hc (collectS_no_hitNx st [] h0)
          case nx =>
              have h0 : nxle st = 0 := by simp [nxle] at h; omega
              cases hnt : nextTok ts with
              | none =>
                  simp only [runP, hnt]
                  exact ih st ts xs (by omega)
              | some tt =>
                  obtain ⟨t, ts2⟩ := tt
                  cases t <;> simp only [runP, hnt]
                  case ws => exact ih _ ts2 xs (by simp [nxle]; omega)
                  case intTok v =>
                      cases v with
                      | none => simp
                      | some v => exact ih _ ts2 xs (by simp [nxle]; omega)
                  case floatTok v =>
                      cases v with
                      | none => simp
                      | some v => exact ih _ ts2 xs (by simp [nxle]; omega)
                  case strTok v =>
                      cases v with
                      | none => simp
                      | some v => exact ih _ ts2 xs (by simp [nxle]; omega)
                  case lparen => exact ih _ ts2 xs (by simp [nxle]; omega)
                  case rparen => exact ih _ ts2 xs (by simp [nxle]; omega)
                  case keyword s =>
                      split
                      · exact ih _ ts2 xs (by simp [nxle]; omega)
                      · split
                        · exact ih _ ts2 xs (by simp [nxle]; omega)
                        · split
                          · exact ih _ ts2 xs (by simp [nxle]; omega)
                          · simp
                  case reserved s =>
                      split
                      · exact ih _ ts2 xs (by simp [nxle]; omega)
                      · split
                        · exact ih _ ts2 xs (by simp [nxle]; omega)
                        · split
                          · exact ih _ ts2 xs (by simp [nxle]; omega)
                          · simp
                  case idTok s => exact ih _ ts2 xs (by simp [nxle]; omega)

theorem parse_not_panicked (ts : List Tok) : parse ts ≠ POut.panicked := by
  unfold parse
  exact runP_no_panicked _ _ _ _ (by simp [nxle])

theorem runP_ok_scanD :
    ∀ (f : Nat) (st : List PE) (ts : List Tok) (xs : List Expr) (r : Option Expr),
      (nxle st = 1 ∨ (nxle st = 0 ∧ nextTok ts = none)) →
      runP f st ts xs = POut.done (Except.ok r) →
      ∀ d, absorb st = some d → scanD d ts = true := by
  intro f
  induction f with
  | zero => intro st ts xs r _ hrun; simp [runP] at hrun
  | succ f ih =>
      intro st ts xs r hP hrun d habs
      cases st with
      | nil =>
          rcases hP with hP | ⟨_, hPn⟩
          · simp [nxle] at hP
          · simp only [absorb] at habs
            injection habs with habs
            subst habs
            rw [nextTok_none_scanD ts [] hPn]
            rfl
      | cons x st =>
          cases x
          case la => simp [runP] at hrun
          case sa => simp [runP] at hrun
          case ex e =>
              simp only [runP] at hrun
              simp only [absorb] at habs
              have hP2 : nxle st = 1 ∨ (nxle st = 0 ∧ nextTok ts = none) := by
                rcases hP with hP | ⟨hP0, hPn⟩
                · exact Or.inl (by simpa [nxle] using hP)
                · exact Or.inr ⟨by simpa [nxle] using hP0, hPn⟩
              exact ih st ts (e :: xs) r hP2 hrun d habs
          case le =>
              rcases hP with hP1 | ⟨hP0, _⟩
              · have h0 : nxle st = 0 := by simp [nxle] at hP1; omega
                simp only [runP] at hrun
                cases hc : collectL st [] with
                | failed e => simp [hc] at hrun
                | hitNx => simp [hc] at hrun
                | found v rest =>
                    simp only [hc] at hrun
                    have hnr : nxle rest = 0 := by
                      have := collectL_nxle st [] v rest hc
                      omega
                    rcases collectL_absorb st [] v rest hc with hA | ⟨hrest, hA⟩
                    · cases hr : absorb rest with
                      | none =>
                          have hnone : absorb (PE.le :: st) = none := by
                            simp [absorb, hA, hr]
                          rw [hnone] at habs
                          exact Option.noConfusion habs
                      | some dr =>
                          have habs2 : d = dr := by
                            have hsome : absorb (PE.le :: st) = some dr := by
                              simp [absorb, hA, hr]
                            rw [hsome] at habs
                            injection habs with h2
                            exact h2.symm
                          subst habs2
                          exact ih _ ts xs r (Or.inl (by simp [nxle, hnr])) hrun d
                            (by simp [absorb, hr])
                    · subst hrest
                      have habs2 : d = [] := by
                        have hsome : absorb (PE.le :: st) = some [] := by
                          simp [absorb, hA]
                        rw [hsome] at habs
                        injection habs with h2
                        exact h2.symm
                      subst habs2
                      exact ih _ ts xs r (Or.inl (by simp [nxle])) hrun []
                        (by simp [absorb])
              · simp [nxle] at hP0
          case se =>
              rcases hP with hP1 | ⟨hP0, _⟩
              · have h0 : nxle st = 0 := by simp [nxle] at hP1; omega
                simp only [runP] at hrun
                cases hc : collectS st [] with
                | failed e => simp [hc] at hrun
                | hitNx => simp [hc] at hrun
                | found v rest =>
                    simp only [hc] at hrun
                    have hnr : nxle rest = 0 := by
                      have := collectS_nxle st [] v rest hc
                      omega
                    rcases collectS_absorb st [] v rest hc with hA | ⟨hrest, hA⟩
                    · cases hr : absorb rest with
                      | none =>
                          have hnone : absorb (PE.se :: st) = none := by
                            simp [absorb, hA, hr]
                          rw [hnone] at habs
                          exact Option.noConfusion habs
                      | some dr =>
                          have habs2 : d = dr := by
                            have hsome : absorb (PE.se :: st) = some dr := by
                              simp [absorb, hA, hr]
                            rw [hsome] at habs
                            injection habs with h2
                            exact h2.symm
                          subst habs2
                          exact ih _ ts xs r (Or.inl (by simp [nxle, hnr])) hrun d
                            (by simp [absorb, hr])
                    · subst hrest
                      have habs2 : d = [] := by
                        have hsome : absorb (PE.se :: st) = some [] := by
                          simp [absorb, hA]
                        rw [hsome] at habs
                        injection habs with h2
                        exact h2.symm
                      subst habs2
                      exact ih _ ts xs r (Or.inl (by simp [nxle])) hrun []
                        (by simp [absorb])
              · simp [nxle] at hP0
          case nx =>
              simp only [absorb] at habs
              rcases hP with hP1 | ⟨hP0, hPn⟩
              case inr => simp [nxle] at hP0
              have h0 : nxle st = 0 := by simp [nxle] at hP1; omega
              cases hnt : nextTok ts with
              | none =>
                  simp only [runP, hnt] at hrun
                  exact ih st ts xs r (Or.inr ⟨h0, hnt⟩) hrun d habs
              | some tt =>
                  obtain ⟨t, ts2⟩ := tt
                  rw [nextTok_some_scanD ts t ts2 hnt d]
                  cases t <;> simp only [runP, hnt] at hrun
                  case ws =>
                      simp only [scanD]
                      exact ih _ ts2 xs r (Or.inl (by simp [nxle, h0])) hrun d
                        (by simp [absorb, habs])
                  case intTok v =>
                      cases v with
                      | none => simp at hrun
                      | some v =>
                          simp only [scanD]
                          exact ih _ ts2 xs r (Or.inl (by simp [nxle, h0])) hrun d
                            (by simp [absorb, habs])
                  case floatTok v =>
                      cases v with
                      | none => simp at hrun
                      | some v =>
                          simp only [scanD]
                          exact ih _ ts2 xs r (Or.inl (by simp [nxle, h0])) hrun d
                            (by simp [absorb, habs])
                  case strTok v =>
                      cases v with
                      | none => simp at hrun
                      | some v =>
                          simp only [scanD]
                          exact ih _ ts2 xs r (Or.inl (by simp [nxle, h0])) hrun d
                            (by simp [absorb, habs])
                  case idTok v =>
                      simp only [scanD]
                      exact ih _ ts2 xs r (Or.inl (by simp [nxle, h0])) hrun d
                        (by simp [absorb, habs])
                  case lparen =>
                      simp only [scanD]
                      exact ih _ ts2 xs r (Or.inl (by simp [nxle, h0])) hrun ('(' :: d)
                        (by simp [absorb, habs])
                  case rparen =>
                      cases d with
                      | nil =>
                          simp only [scanD]
                          exact ih _ ts2 xs r (Or.inl (by simp [nxle, h0])) hrun []
                            (by simp [absorb, habs])
                      | cons c d2 =>
                          by_cases hc : c = '('
                          · subst hc
                            exact ih _ ts2 xs r (Or.inl (by simp [nxle, h0])) hrun d2
                              (by simp [absorb, habs])
                          · exfalso
                            rcases absorb_ne_lparen_collectL st c d2 habs hc [] with ⟨e, hf⟩ | hf
                            · cases f with
                              | zero => simp [runP] at hrun
                              | succ g => simp [runP, hf] at hrun
                            · cases f with
                              | zero => simp [runP] at hrun
                              | succ g => simp [runP, hf] at hrun
                  case keyword sk =>
                      split at hrun
                      · simp only [scanD]
                        exact ih _ ts2 xs r (Or.inl (by simp [nxle, h0])) hrun d
                          (by simp [absorb, habs])
                      · split at hrun
                        · simp only [scanD]
                          exact ih _ ts2 xs r (Or.inl (by simp [nxle, h0])) hrun d
                            (by simp [absorb, habs])
                        · split at hrun
                          · simp only [scanD]
                            exact ih _ ts2 xs r (Or.inl (by simp [nxle, h0])) hrun d
                              (by simp [absorb, habs])
                          · simp at hrun
                  case reserved sk =>
                      split at hrun
                      case isTrue hsk =>
                          have hsk2 : sk = "]" := by simpa using hsk
                          subst hsk2
                          cases d with
                          | nil =>
                              exact ih _ ts2 xs r (Or.inl (by simp [nxle, h0])) hrun []
                                (by simp [absorb, habs])
                          | cons c d2 =>
                              by_cases hc : c = '['
                              · subst hc
                                exact ih _ ts2 xs r (Or.inl (by simp [nxle, h0])) hrun d2
                                  (by simp [absorb, habs])
                              · exfalso
                                rcases absorb_ne_lbracket_collectS st c d2 habs hc []
                                  with ⟨e, hf⟩ | hf
                                · cases f with
                                  | zero => simp [runP] at hrun
                                  | succ g => simp [runP, hf] at hrun
                                · cases f with
                                  | zero => simp [runP] at hrun
                                  | succ g => simp [runP, hf] at hrun
                      case isFalse hsk1 =>
                          split at hrun
                          case isTrue hsk =>
                              have hsk2 : sk = "[" := by simpa using hsk
                              subst hsk2
                              exact ih _ ts2 xs r (Or.inl (by simp [nxle, h0])) hrun ('[' :: d)
                                (by simp [absorb, habs])
                          case isFalse hsk2 =>
                              split at hrun
                              · have hne1 : (sk == "[") = false := by
                                  simp only [beq_eq_false_iff_ne]
                                  intro h2
                                  exact hsk2 (by simp [h2])
                                have hne2 : (sk == "]") = false := by
                                  simp only [beq_eq_false_iff_ne]
                                  intro h2
                                  exact hsk1 (by simp [h2])
                                simp only [scanD, hne1, hne2, Bool.false_eq_true, if_false]
                                exact ih _ ts2 xs r (Or.inl (by simp [nxle, h0])) hrun d
                                  (by simp [absorb, habs])
                              · simp at hrun

/-- Claim C5, counterexample: the claim says every input with a ')' that
has no matching opener fails with a specific message; but the collection
loop of the E::Le arm simply stops at the bottom of the stack (the Rust
while-let ends without finding an E::La), so the lone token ')' parses
successfully to the empty List. -/
theorem claim5_counterexample :
    parse [Tok.rparen] = POut.done (Except.ok (some (Expr.list []))) ∧
    ∀ e, parse [Tok.rparen] ≠ POut.done (Except.error e) :=
  ⟨rfl, fun e h => by
    rw [show parse [Tok.rparen] = POut.done (Except.ok (some (Expr.list []))) from rfl] at h
    simp at h⟩

/-- Claim C5, amended: the delimiter discipline the parser enforces is
scanD: an opener pushes, a closer matching the innermost opener pops, a
closer against the wrong kind of opener fails, a closer with no opener
at all is absorbed (parsed as if the expression had begun with the
matching opener), and leftover openers at the end fail.  Every token
sequence rejected by this scan makes parse return an error (never a
panic, never a successful expression). -/
theorem claim5_unbalanced_rejected :
    ∀ ts : List Tok, scanD [] ts = false →
      ∃ e, parse ts = POut.done (Except.error e) := by
  intro ts hbad
  cases hp : parse ts with
  | fuelOut => exact absurd hp (parse_not_fuelOut ts)
  | panicked => exact absurd hp (parse_not_panicked ts)
  | done r =>
      cases r with
      | error e => exact ⟨e, rfl⟩
      | ok v =>
          exfalso
          unfold parse at hp
          have hT := runP_ok_scanD _ _ _ _ v (Or.inl (by simp [nxle])) hp []
            (by simp [absorb])
          rw [hT] at hbad
          exact Bool.noConfusion hbad

theorem claim5_unbalanced_rejected_witness :
    scanD [] [Tok.lparen] = false ∧
    ∃ e, parse [Tok.lparen] = POut.done (Except.error e) :=
  ⟨rfl, claim5_unbalanced_rejected [Tok.lparen] rfl⟩

/-- Claim C8: once the is_disconnecting latch is set by
start_disconnection, every subsequently delivered routed message is
silently dropped (handle_message returns Ok immediately, with the worker
unchanged and an empty effect trace, in particular no tx write); and the
Disconnect notification to the remote side is sent at most once, because
notify_remote_about_disconnection consumes remote_route: across any two
successive invocations of start_disconnection, at most one Disconnect is
sent, so the remote side observes the same as for a single invocation. -/
theorem claim8_idempotent_teardown :
    (∀ decP decI txOk w msg, w.is_disconnecting = true →
      handle_message decP decI txOk w msg = (Except.ok (), w, [])) ∧
    (∀ w r, (start_disconnection w r).1.is_disconnecting = true) ∧
    (∀ w, (notify_remote_about_disconnection w).1.remote_route = none) ∧
    (∀ w r1 r2,
      disconnectSends ((start_disconnection w r1).2 ++
        (start_disconnection (start_disconnection w r1).1 r2).2) ≤ 1) ∧
    (∀ w r, w.remote_route = none → disconnectSends (start_disconnection w r).2 = 0) := by
  refine ⟨?_, ?_, ?_, ?_, ?_⟩
  · intro decP decI txOk w msg h
    simp [handle_message, h]
  · intro w r
    cases r <;>
      cases hw : w.remote_route <;>
        simp [start_disconnection, notify_remote_about_disconnection, stop_receiver, hw]
  · intro w
    cases hw : w.remote_route <;> simp [notify_remote_about_disconnection, hw]
  · intro w r1 r2
    cases r1 <;> cases r2 <;> cases hw : w.remote_route <;>
      simp [start_disconnection, notify_remote_about_disconnection, stop_receiver,
        disconnectSends, hw]
  · intro w r h
    cases r <;>
      simp [start_disconnection, notify_remote_about_disconnection, stop_receiver,
        disconnectSends, h]

theorem claim8_idempotent_teardown_witness :
    handle_message (fun _ => none) (fun _ => none) true
      { state := PWState.initialized, tx := true, rx := false, peer := 0,
        internal_address := (0 : Nat), remote_address := (1 : Nat),
        receiver_address := (2 : Nat), remote_route := some [5],
        is_disconnecting := true, type_name := TypeName.inlet }
      { onward := [(1 : Nat)], return_route := [7], payload := [3] } =
      (Except.ok (),
       { state := PWState.initialized, tx := true, rx := false, peer := 0,
         internal_address := (0 : Nat), remote_address := (1 : Nat),
         receiver_address := (2 : Nat), remote_route := some [5],
         is_disconnecting := true, type_name := TypeName.inlet }, []) ∧
    disconnectSends (start_disconnection
      { state := PWState.initialized, tx := true, rx := false, peer := 0,
        internal_address := (0 : Nat), remote_address := (1 : Nat),
        receiver_address := (2 : Nat), remote_route := none,
        is_disconnecting := true, type_name := TypeName.inlet }
      DisconnectionReason.failedTx).2 = 0 :=
  ⟨claim8_idempotent_teardown.1 (fun _ => none) (fun _ => none) true _ _ rfl,
   claim8_idempotent_teardown.2.2.2.2 _ DisconnectionReason.failedTx rfl⟩

/-- Claim C9: a worker in state ReceivePong receiving a routed message
addressed to its remote address whose payload decodes to any portal
message other than Pong fails with the Protocol error, with the worker
unchanged and an empty effect trace - in particular the receive
processor is never started; a message addressed to its internal address
in that state fails with PortalInvalidState. -/
theorem claim9_receive_pong_protocol :
    (∀ decP decI txOk (w : TcpPortalWorker) (msg : RoutedMsg) m,
      w.is_disconnecting = false → w.state = PWState.receivePong →
      msg.onward = [w.remote_address] → w.remote_address ≠ w.internal_address →
      decP msg.payload = some m → m ≠ PortalMessage.pong →
      handle_message decP decI txOk w msg =
        (Except.error TransportError.protocol, w, [])) ∧
    (∀ decP decI txOk (w : TcpPortalWorker) (msg : RoutedMsg),
      w.is_disconnecting = false → w.state = PWState.receivePong →
      msg.onward = [w.internal_address] →
      handle_message decP decI txOk w msg =
        (Except.error TransportError.portalInvalidState, w, [])) := by
  constructor
  · intro decP decI txOk w msg m hdis hstate honward hneq hdec hm
    simp [handle_message, hdis, honward, hstate, hneq, hdec, hm]
  · intro decP decI txOk w msg hdis hstate honward
    simp [handle_message, hdis, honward, hstate]

theorem claim9_receive_pong_protocol_witness :
    handle_message (fun _ => some (PortalMessage.payload [])) (fun _ => none) true
      { state := PWState.receivePong, tx := false, rx := true, peer := 0,
        internal_address := (0 : Nat), remote_address := (1 : Nat),
        receiver_address := (2 : Nat), remote_route := none,
        is_disconnecting := false, type_name := TypeName.inlet }
      { onward := [(1 : Nat)], return_route := [7], payload := [9] } =
      (Except.error TransportError.protocol,
       { state := PWState.receivePong, tx := false, rx := true, peer := 0,
         internal_address := (0 : Nat), remote_address := (1 : Nat),
         receiver_address := (2 : Nat), remote_route := none,
         is_disconnecting := false, type_name := TypeName.inlet }, []) ∧
    handle_message (fun _ => some (PortalMessage.payload [])) (fun _ => none) true
      { state := PWState.receivePong, tx := false, rx := true, peer := 0,
        internal_address := (0 : Nat), remote_address := (1 : Nat),
        receiver_address := (2 : Nat), remote_route := none,
        is_disconnecting := false, type_name := TypeName.inlet }
      { onward := [(0 : Nat)], return_route := [7], payload := [9] } =
      (Except.error TransportError.portalInvalidState,
       { state := PWState.receivePong, tx := false, rx := true, peer := 0,
         internal_address := (0 : Nat), remote_address := (1 : Nat),
         receiver_address := (2 : Nat), remote_route := none,
         is_disconnecting := false, type_name := TypeName.inlet }, []) :=
  ⟨claim9_receive_pong_protocol.1 _ _ true _ _ (PortalMessage.payload [])
     rfl rfl rfl (by decide) rfl (by decide),
   claim9_receive_pong_protocol.2 _ _ true _ _ rfl rfl rfl⟩

/-- Claim C10: when the vaults directory already contains a `default`
entry, set_default returns an error (the symlink creation fails with
EEXIST) and the existing default is not repointed (the filesystem is
returned unchanged only on success; the error path performs no write);
when no `default` entry is present and the named vault's config file
exists and parses, it creates the link pointing at dir/name.json and
returns the named vault's state. -/
theorem claim10_set_default_no_repoint :
    (∀ pj fsys st (name : String),
      (Fs.lookup fsys (st.dir ++ ["default"])).isSome = true →
      set_default pj fsys st name = Except.error FsError.alreadyExists) ∧
    (∀ pj fsys st (name : String) contents config,
      Fs.lookup fsys (st.dir ++ ["default"]) = none →
      Fs.lookup fsys (st.dir ++ [name ++ ".json"]) = some (FsEntry.file contents) →
      pj contents = some config →
      ∃ fs2, set_default pj fsys st name =
          Except.ok (fs2, { path := st.dir ++ [name ++ ".json"], config := config }) ∧
        Fs.lookup fs2 (st.dir ++ ["default"]) =
          some (FsEntry.symlink (st.dir ++ [name ++ ".json"]))) := by
  constructor
  · intro pj fsys st name h
    simp [set_default, symlinkOp, h]
  · intro pj fsys st name contents config hlink horig hpj
    have hne : ¬(st.dir ++ ["default"] = st.dir ++ [name ++ ".json"]) := by
      intro h
      rw [h, horig] at hlink
      exact Option.noConfusion hlink
    refine ⟨(st.dir ++ ["default"],
      FsEntry.symlink (st.dir ++ [name ++ ".json"])) :: fsys, ?_, ?_⟩
    · simp only [set_default, symlinkOp, hlink, Option.isSome_none, Bool.false_eq_true,
        if_false, readToString, Fs.lookup, if_neg hne, horig, hpj]
    · simp [Fs.lookup]

theorem claim10_set_default_no_repoint_witness :
    set_default (fun s => if s = "cfg" then some (VaultConfig.fs ["vault.data"]) else none)
      [(["vaults", "default"], FsEntry.symlink ["vaults", "old.json"]),
       (["vaults", "n.json"], FsEntry.file "cfg")]
      { dir := ["vaults"] } "n" = Except.error FsError.alreadyExists ∧
    ∃ fs2, set_default
        (fun s => if s = "cfg" then some (VaultConfig.fs ["vault.data"]) else none)
      [(["vaults", "n.json"], FsEntry.file "cfg")]
      { dir := ["vaults"] } "n" =
        Except.ok (fs2,
          { path := ["vaults", "n.json"], config := VaultConfig.fs ["vault.data"] }) ∧
      Fs.lookup fs2 ["vaults", "default"] =
        some (FsEntry.symlink ["vaults", "n.json"]) :=
  ⟨claim10_set_default_no_repoint.1 _ _ { dir := ["vaults"] } "n" rfl,
   claim10_set_default_no_repoint.2 _ _ { dir := ["vaults"] } "n" "cfg"
     (VaultConfig.fs ["vault.data"]) rfl rfl rfl⟩

end Ockam
